import Mathlib

/-!
Verification of the `tqm` task-scheduler core against its specification.

Each definition below is a shallow embedding of a function of the Python
source, translated clause by clause; the file reference is given in the
doc comment of every definition.  Wall-clock timestamps, Qt signals and
logging are irrelevant to the verified properties and are dropped from
the embedding; everything else (branching, ordering of effects, error
behaviour) follows the source line by line.
-/

/-! ## Task state machine — `src/tqm/_core/task_state.py` -/

/-- The eight lifecycle states of `TaskStateEnum`. -/
inductive TaskStateEnum where
  | running
  | completed
  | failed
  | blocked
  | retrying
  | deleted
  | waiting
  | inactive
deriving DecidableEq, Repr

/-- One history record (`StateHistory`).  The wall-clock `timestamp` field is
not modelled; it carries no information used by any claim. -/
structure StateHistory where
  active_state : TaskStateEnum
  comment : String
deriving DecidableEq, Repr

/-- Source `TaskState`: current state plus append-only history tuple. -/
structure TaskState where
  current : TaskStateEnum
  history : List StateHistory
deriving DecidableEq, Repr

/-- Default-constructed `TaskState()`: current = INACTIVE, empty history. -/
def TaskState.init : TaskState :=
  { current := TaskStateEnum.inactive, history := [] }

/-- Source `TaskState._set_state`: unconditionally updates `current` and appends a
history record — the source has no guard against re-entering the current
state. -/
def TaskState.set_state (s : TaskState) (st : TaskStateEnum) (comment : String) : TaskState :=
  { current := st
    history := s.history ++ [{ active_state := st, comment := comment }] }

/-- Source `TaskState.is_waiting`. -/
def TaskState.is_waiting (s : TaskState) : Bool := s.current = TaskStateEnum.waiting

/-- Source `TaskState.is_deleted`. -/
def TaskState.is_deleted (s : TaskState) : Bool := s.current = TaskStateEnum.deleted

/-- Source `TaskState.is_inactive`. -/
def TaskState.is_inactive (s : TaskState) : Bool := s.current = TaskStateEnum.inactive

/-- Source `TaskState.is_completed`. -/
def TaskState.is_completed (s : TaskState) : Bool := s.current = TaskStateEnum.completed

/-- Source `TaskState.is_failed`. -/
def TaskState.is_failed (s : TaskState) : Bool := s.current = TaskStateEnum.failed

/-- Source `TaskState.is_running`. -/
def TaskState.is_running (s : TaskState) : Bool := s.current = TaskStateEnum.running

/-- Source `TaskState.is_retrying`. -/
def TaskState.is_retrying (s : TaskState) : Bool := s.current = TaskStateEnum.retrying

/-- Source `TaskState.is_blocked`. -/
def TaskState.is_blocked (s : TaskState) : Bool := s.current = TaskStateEnum.blocked

/-- Source `TaskState.is_removable` (task_state.py lines 207-212): the source checks
`is_waiting, is_deleted, is_inactive, is_completed, is_failed` — and nothing
else.  In particular `is_blocked` is NOT in the list. -/
def TaskState.is_removable (s : TaskState) : Bool :=
  s.is_waiting || s.is_deleted || s.is_inactive || s.is_completed || s.is_failed

/-- The removable-state set as the spec sentence of claim C2 words it:
`{waiting, blocked, inactive, completed, failed, deleted}`.  This definition
follows the SPEC text, for comparison against `TaskState.is_removable`
translated from the source. -/
def spec_removable_states (st : TaskStateEnum) : Bool :=
  st = TaskStateEnum.waiting || st = TaskStateEnum.blocked ||
  st = TaskStateEnum.inactive || st = TaskStateEnum.completed ||
  st = TaskStateEnum.failed || st = TaskStateEnum.deleted

/-- Source `TaskBase.__post_init__` calls `self.state.set_inactive()` on the freshly
constructed state, so every unit starts with history `[inactive]`. -/
def unit_initial_state : TaskState :=
  TaskState.init.set_state TaskStateEnum.inactive ""

/-- Running a sequence of state-machine setter calls (`set_running`,
`set_waiting`, ... are all `_set_state` at the respective enum value). -/
def apply_setters (s : TaskState) (calls : List (TaskStateEnum × String)) : TaskState :=
  calls.foldl (fun acc c => acc.set_state c.1 c.2) s

/-- States of a history, oldest first. -/
def history_states (s : TaskState) : List TaskStateEnum :=
  s.history.map StateHistory.active_state

/-- Predicate for "No two consecutive history entries carry the same state", as claim C3
words it. -/
def no_consecutive_dup : List TaskStateEnum → Bool
  | [] => true
  | [_] => true
  | a :: b :: rest => decide (a ≠ b) && no_consecutive_dup (b :: rest)

theorem apply_setters_history (s : TaskState) (calls : List (TaskStateEnum × String)) :
    ∃ t, (apply_setters s calls).history = s.history ++ t := by
  induction calls generalizing s with
  | nil => exact ⟨[], by simp [apply_setters]⟩
  | cons c cs ih =>
    obtain ⟨t, ht⟩ := ih (s.set_state c.1 c.2)
    refine ⟨[{ active_state := c.1, comment := c.2 }] ++ t, ?_⟩
    simpa [apply_setters, TaskState.set_state] using ht

/-- C2 (corrected): `is_removable` is true exactly for
`{waiting, inactive, completed, failed, deleted}` — `blocked` is excluded,
along with `running` and `retrying`. -/
theorem is_removable_characterization :
    ∀ (st : TaskStateEnum) (h : List StateHistory),
      (TaskState.mk st h).is_removable =
        (st = TaskStateEnum.waiting || st = TaskStateEnum.inactive ||
         st = TaskStateEnum.completed || st = TaskStateEnum.failed ||
         st = TaskStateEnum.deleted) := by
  intro st h
  cases st <;> rfl

/-- C2 counterexample: the claim includes `blocked` among the removable
states, but the source's `is_removable` returns `false` for a blocked unit
while the claimed state set contains `blocked`. -/
theorem is_removable_blocked_counterexample :
    (TaskState.mk TaskStateEnum.blocked []).is_removable = false ∧
    spec_removable_states TaskStateEnum.blocked = true := by
  constructor <;> rfl

/-- C3 (corrected): after any sequence of setter calls, a unit's state
history still begins with the `inactive` entry written by
`TaskBase.__post_init__`.  (The claim's second half — no consecutive
duplicate entries — is refuted separately: `_set_state` appends
unconditionally.) -/
theorem history_starts_inactive (calls : List (TaskStateEnum × String)) :
    (history_states (apply_setters unit_initial_state calls)).head? =
      some TaskStateEnum.inactive := by
  obtain ⟨t, ht⟩ := apply_setters_history unit_initial_state calls
  rw [history_states, ht]
  rfl

/-- C3 counterexample: calling `set_retrying` twice in a row (exactly what the
executor's predicate-retry path does on every tick, see
`_ExecutorBlocker._handle_predicate`, and what the repository's own tests
assert as expected history `['retrying', 'retrying']`) records two
consecutive identical history entries. -/
theorem history_consecutive_dup_counterexample :
    history_states (apply_setters unit_initial_state
        [(TaskStateEnum.waiting, ""), (TaskStateEnum.retrying, ""), (TaskStateEnum.retrying, "")]) =
      [TaskStateEnum.inactive, TaskStateEnum.waiting,
       TaskStateEnum.retrying, TaskStateEnum.retrying] ∧
    no_consecutive_dup
      (history_states (apply_setters unit_initial_state
        [(TaskStateEnum.waiting, ""), (TaskStateEnum.retrying, ""), (TaskStateEnum.retrying, "")])) = false := by
  constructor <;> rfl

/-! ## Delay strategies — `src/tqm/_core/retry_policy/delay_strategy.py` -/

/-- Source `FixedDelay.get_delay`: returns the configured `delay_seconds` for any
attempt.  Python ints are unbounded, so `Int` is the faithful carrier. -/
def FixedDelay.get_delay (delay_seconds : Int) (_attempt : Nat) : Int :=
  delay_seconds

/-- Source `LinearBackoff.get_delay`: `min(delay_seconds + delay_seconds * attempt,
max_delay)`. -/
def LinearBackoff.get_delay (delay_seconds max_delay : Int) (attempt : Nat) : Int :=
  min (delay_seconds + delay_seconds * (attempt : Int)) max_delay

/-- Source `ExponentialBackoff.get_delay`:
`min(delay_seconds * multiplier ** attempt, max_delay)`. -/
def ExponentialBackoff.get_delay (delay_seconds multiplier max_delay : Int) (attempt : Nat) : Int :=
  min (delay_seconds * multiplier ^ attempt) max_delay

/-- C6 (corrected): the three delay formulas hold for every configuration,
and the returned delay is a non-negative integer PROVIDED the configured
base delay, multiplier and cap are themselves non-negative — the source
never validates its configuration, so an (aberrant) negative base yields a
negative delay (see the counterexample). -/
theorem delay_strategies_contract (base mult maxd : Int) (attempt : Nat)
    (hb : 0 ≤ base) (hm : 0 ≤ mult) (hd : 0 ≤ maxd) :
    FixedDelay.get_delay base attempt = base ∧
    LinearBackoff.get_delay base maxd attempt = min (base + base * (attempt : Int)) maxd ∧
    ExponentialBackoff.get_delay base mult maxd attempt = min (base * mult ^ attempt) maxd ∧
    0 ≤ FixedDelay.get_delay base attempt ∧
    0 ≤ LinearBackoff.get_delay base maxd attempt ∧
    0 ≤ ExponentialBackoff.get_delay base mult maxd attempt := by
  refine ⟨rfl, rfl, rfl, hb, ?_, ?_⟩
  · refine le_min ?_ hd
    have : (0 : Int) ≤ base * (attempt : Int) :=
      mul_nonneg hb (Int.natCast_nonneg attempt)
    omega
  · exact le_min (mul_nonneg hb (pow_nonneg hm attempt)) hd

/-- C6 witness: the contract at a concrete configuration
(base 1, multiplier 2, cap 60, attempt 3). -/
theorem delay_strategies_contract_witness :
    FixedDelay.get_delay 1 3 = 1 ∧
    LinearBackoff.get_delay 1 60 3 = min (1 + 1 * (3 : Int)) 60 ∧
    ExponentialBackoff.get_delay 1 2 60 3 = min (1 * 2 ^ 3) 60 ∧
    (0 : Int) ≤ FixedDelay.get_delay 1 3 ∧
    (0 : Int) ≤ LinearBackoff.get_delay 1 60 3 ∧
    (0 : Int) ≤ ExponentialBackoff.get_delay 1 2 60 3 :=
  delay_strategies_contract 1 2 60 3 (by decide) (by decide) (by decide)

/-- C6 counterexample: nothing stops a negative configured base, and then the
returned delay is negative — refuting "in every case the returned value is a
non-negative integer" as universally stated. -/
theorem delay_negative_counterexample :
    FixedDelay.get_delay (-1) 0 = -1 ∧
    LinearBackoff.get_delay (-1) 300 0 = -1 ∧
    ¬ (0 : Int) ≤ FixedDelay.get_delay (-1) 0 := by
  refine ⟨rfl, ?_, by decide⟩
  decide

/-! ## Retry policies — `src/tqm/_core/retry_policy/retry_policy.py` -/

/-- Source `RetryStatus`. -/
inductive RetryStatus where
  | success
  | retry
  | fail
deriving DecidableEq, Repr

/-- Source `SimpleRetryPolicy.should_retry`: RETRY while `attempt < max_attempts`,
else FAIL.  The mutable policy object is represented by its two counters. -/
def SimpleRetryPolicy.should_retry (attempt max_attempts : Nat) : RetryStatus :=
  if attempt < max_attempts then RetryStatus.retry else RetryStatus.fail

/-- Outcome of calling the user condition of a `ConditionalRetryPolicy`:
it returns a boolean or raises. -/
inductive CondResult where
  | ok (b : Bool)
  | raised
deriving DecidableEq, Repr

/-- Source `ConditionalRetryPolicy.should_retry`: FAIL when attempts are exhausted;
otherwise SUCCESS/RETRY by the condition's boolean, and any exception raised
by the condition is caught in the `try/except` and mapped to FAIL — the
function always returns a `RetryStatus`, never propagates. -/
def ConditionalRetryPolicy.should_retry (attempt max_attempts : Nat)
    (condition : CondResult) : RetryStatus :=
  if attempt ≥ max_attempts then RetryStatus.fail
  else
    match condition with
    | CondResult.ok true => RetryStatus.success
    | CondResult.ok false => RetryStatus.retry
    | CondResult.raised => RetryStatus.fail

/-- C5 (confirmed): `ConditionalRetry` fails once attempts are exhausted;
below the limit it maps condition-true to SUCCESS, condition-false to RETRY,
and a raised exception to FAIL (swallowed: the function is total into
`RetryStatus`). -/
theorem conditional_retry_cases (a m : Nat) :
    (∀ c, m ≤ a → ConditionalRetryPolicy.should_retry a m c = RetryStatus.fail) ∧
    (a < m → ConditionalRetryPolicy.should_retry a m (CondResult.ok true) = RetryStatus.success) ∧
    (a < m → ConditionalRetryPolicy.should_retry a m (CondResult.ok false) = RetryStatus.retry) ∧
    (a < m → ConditionalRetryPolicy.should_retry a m CondResult.raised = RetryStatus.fail) := by
  refine ⟨fun c h => ?_, fun h => ?_, fun h => ?_, fun h => ?_⟩
  · simp [ConditionalRetryPolicy.should_retry, h]
  · simp [ConditionalRetryPolicy.should_retry, Nat.not_le.mpr h]
  · simp [ConditionalRetryPolicy.should_retry, Nat.not_le.mpr h]
  · simp [ConditionalRetryPolicy.should_retry, Nat.not_le.mpr h]

/-- C5 witness: the four cases at concrete counters. -/
theorem conditional_retry_cases_witness :
    ConditionalRetryPolicy.should_retry 2 1 CondResult.raised = RetryStatus.fail ∧
    ConditionalRetryPolicy.should_retry 0 1 (CondResult.ok true) = RetryStatus.success ∧
    ConditionalRetryPolicy.should_retry 0 1 (CondResult.ok false) = RetryStatus.retry ∧
    ConditionalRetryPolicy.should_retry 0 1 CondResult.raised = RetryStatus.fail :=
  ⟨(conditional_retry_cases 2 1).1 CondResult.raised (by decide),
   (conditional_retry_cases 0 1).2.1 (by decide),
   (conditional_retry_cases 0 1).2.2.1 (by decide),
   (conditional_retry_cases 0 1).2.2.2 (by decide)⟩

/-! ## Retry handler and the failing-run loop —
`src/tqm/_core/task_retry.py`, `src/tqm/_core/task_executor.py` -/

/-- Source `RetryHandler.handle_failure` specialised to a `SimpleRetryPolicy` (the
policy object is its pair of counters).  Returns whether a retry was
scheduled together with the policy's attempt counter afterwards: on RETRY
the counter is incremented once (`retry_policy.attempt += 1`) and the task
is marked `retrying`; on SUCCESS or FAIL nothing is incremented and
`False` is returned. -/
def RetryHandler.handle_failure (attempt max_attempts : Nat) : Bool × Nat :=
  if SimpleRetryPolicy.should_retry attempt max_attempts = RetryStatus.retry then
    (true, attempt + 1)
  else
    (false, attempt)

/-- State-transition events of one unit, as recorded in its history. -/
inductive RunEv where
  | running
  | retrying
  | inactive
  | waiting
  | failed
deriving DecidableEq, Repr

/-- The per-attempt cycle a retried failure appends to the history:
`_on_task_started` sets `running`; the work function raises;
`handle_failure` sets `retrying`; the scheduled `retry_task` then calls
`task.reset` (sets `inactive`) and `_initialize_task` (sets `waiting`). -/
def retry_cycle : List RunEv :=
  [RunEv.running, RunEv.retrying, RunEv.inactive, RunEv.waiting]

theorem handle_failure_eq (a m : Nat) :
    RetryHandler.handle_failure a m = if a < m then (true, a + 1) else (false, a) := by
  by_cases h : a < m <;>
    simp [RetryHandler.handle_failure, SimpleRetryPolicy.should_retry, h]

/-- The state transitions of a unit whose work function fails on every
attempt, driven by the executor loop: each dispatch sets `running`, the
failure goes through `RetryHandler.handle_failure`; while it retries, the
cycle `running, retrying, inactive, waiting` repeats with the attempt
counter incremented (the handler's second component is `attempt + 1` in
that branch); once it no longer retries, `_on_task_failed` marks the task
`failed`. -/
def run_failing_task (attempt max_attempts : Nat) : List RunEv :=
  if h : (RetryHandler.handle_failure attempt max_attempts).1 = true then
    retry_cycle ++ run_failing_task (RetryHandler.handle_failure attempt max_attempts).2 max_attempts
  else
    [RunEv.running, RunEv.failed]
termination_by max_attempts - attempt
decreasing_by
  rw [handle_failure_eq] at h ⊢
  by_cases hlt : attempt < max_attempts
  · simp only [if_pos hlt]
    omega
  · simp [hlt] at h

theorem run_failing_task_closed :
    ∀ (k a m : Nat), m - a = k → a ≤ m →
      run_failing_task a m =
        (List.replicate k retry_cycle).flatten ++ [RunEv.running, RunEv.failed] := by
  intro k
  induction k with
  | zero =>
    intro a m hk _
    rw [run_failing_task]
    have hlt : ¬ a < m := by omega
    simp [handle_failure_eq, hlt]
  | succ n ih =>
    intro a m hk _
    rw [run_failing_task]
    have hlt : a < m := by omega
    have h1 : (RetryHandler.handle_failure a m).1 = true := by
      simp [handle_failure_eq, hlt]
    have h2 : (RetryHandler.handle_failure a m).2 = a + 1 := by
      simp [handle_failure_eq, hlt]
    rw [dif_pos h1, h2, ih (a + 1) m (by omega) (by omega)]
    simp [List.replicate_succ]

theorem count_running_join_replicate (k : Nat) :
    ((List.replicate k retry_cycle).flatten.count RunEv.running) = k := by
  induction k with
  | zero => rfl
  | succ n ih =>
    have hc : List.count RunEv.running retry_cycle = 1 := rfl
    rw [List.replicate_succ, List.flatten_cons, List.count_append, ih, hc]
    omega

/-- C4 (confirmed): with `SimpleRetry(n)` and a work function that fails on
every attempt, the recorded transitions are exactly `n` copies of the cycle
`running, retrying, inactive, waiting` followed by `running, failed`: there
are exactly `n + 1` `running` transitions before `failed`, with a
`retrying` between each consecutive pair of runs.  Moreover
`SimpleRetry.should_retry` returns RETRY exactly while the counter is below
`max_attempts` (else FAIL), and the handler increments the counter exactly
once per retried failure and leaves it unchanged otherwise. -/
theorem simple_retry_failing_run (n : Nat) :
    run_failing_task 0 n =
      (List.replicate n retry_cycle).flatten ++ [RunEv.running, RunEv.failed] ∧
    (run_failing_task 0 n).count RunEv.running = n + 1 ∧
    (∀ a, SimpleRetryPolicy.should_retry a n =
      if a < n then RetryStatus.retry else RetryStatus.fail) ∧
    (∀ a, RetryHandler.handle_failure a n =
      if a < n then (true, a + 1) else (false, a)) := by
  have hclosed := run_failing_task_closed n 0 n (by omega) (by omega)
  refine ⟨hclosed, ?_, fun a => rfl, fun a => handle_failure_eq a n⟩
  rw [hclosed]
  simp [List.count_append, count_running_join_replicate]

/-! ## Ready/deferred queue — `src/tqm/_core/queue.py`

Tasks are represented by their ids (`Nat`); the heap is the list of ids it
holds (`heapq.heapify` after `list.remove` permutes the backing list but
preserves its multiset of elements, which is what the membership and count
statements below are about), and the deferred `Dict[UUID, TaskUnit]` is the
finite set of its keys. -/

/-- The two error classes raised by the queue:
`TaskNotFoundError` and `DeferredTaskNotFound`. -/
inductive QueueError where
  | task_not_found
  | deferred_task_not_found
deriving DecidableEq, Repr

/-- Queue state: main heap (list of task ids) plus deferred id-keyed map. -/
structure TasksQueue where
  heap : List Nat
  deferred : Finset Nat
deriving DecidableEq

/-- Source `TasksQueue.remove_from_queue`: `self.heap.remove(task)` removes the first
occurrence and raises `TaskNotFoundError` when absent; then `heapify`. -/
def TasksQueue.remove_from_queue (q : TasksQueue) (t : Nat) : Except QueueError TasksQueue :=
  if t ∈ q.heap then Except.ok { q with heap := q.heap.erase t }
  else Except.error QueueError.task_not_found

/-- Source `TasksQueue.remove_from_deferred`: `self.deferred.pop(task.id)` raises
`DeferredTaskNotFound` when the key is absent. -/
def TasksQueue.remove_from_deferred (q : TasksQueue) (t : Nat) : Except QueueError TasksQueue :=
  if t ∈ q.deferred then Except.ok { q with deferred := q.deferred.erase t }
  else Except.error QueueError.deferred_task_not_found

/-- Source `TasksQueue.remove_task`: try the main queue; on `TaskNotFound` fall back
to the deferred map; if that also fails, re-raise `TaskNotFound`. -/
def TasksQueue.remove_task (q : TasksQueue) (t : Nat) : Except QueueError TasksQueue :=
  match q.remove_from_queue t with
  | Except.ok q2 => Except.ok q2
  | Except.error _ =>
    match q.remove_from_deferred t with
    | Except.ok q2 => Except.ok q2
    | Except.error _ => Except.error QueueError.task_not_found

/-- C7 (amended, proved): `remove_task` tries the main heap first (when the
task is there, the deferred map is untouched), falls back to the deferred
map otherwise, and raises `TaskNotFound` exactly when the task is absent
from both; on success all other entries are unchanged (heap counts and
deferred membership of every other id are preserved).  The task is absent
from both stores afterwards PROVIDED it was not present in both stores at
once and not duplicated in the heap — `remove` deletes only the first
occurrence found (see the counterexample). -/
theorem remove_task_correct (q : TasksQueue) (t : Nat)
    (hdup : q.heap.count t ≤ 1) (hboth : ¬ (t ∈ q.heap ∧ t ∈ q.deferred)) :
    (q.remove_task t = Except.error QueueError.task_not_found ↔
      t ∉ q.heap ∧ t ∉ q.deferred) ∧
    (t ∈ q.heap →
      q.remove_task t = Except.ok { q with heap := q.heap.erase t }) ∧
    (t ∉ q.heap → t ∈ q.deferred →
      q.remove_task t = Except.ok { q with deferred := q.deferred.erase t }) ∧
    (∀ q2, q.remove_task t = Except.ok q2 →
      t ∉ q2.heap ∧ t ∉ q2.deferred ∧
      ∀ s, s ≠ t → q2.heap.count s = q.heap.count s ∧ (s ∈ q2.deferred ↔ s ∈ q.deferred)) := by
  by_cases hh : t ∈ q.heap
  · have hnd : t ∉ q.deferred := fun hd => hboth ⟨hh, hd⟩
    have hok : q.remove_task t = Except.ok { q with heap := q.heap.erase t } := by
      simp [TasksQueue.remove_task, TasksQueue.remove_from_queue, hh]
    refine ⟨?_, fun _ => hok, fun hnh _ => absurd hh hnh, ?_⟩
    · constructor
      · intro hcontra
        rw [hok] at hcontra
        cases hcontra
      · intro hcontra
        exact absurd hh hcontra.1
    · intro q2 h2
      rw [hok] at h2
      cases h2
      refine ⟨?_, hnd, fun s hs => ⟨?_, Iff.rfl⟩⟩
      · show t ∉ q.heap.erase t
        have h1 := List.count_erase_self t q.heap
        have hc1 : q.heap.count t = 1 :=
          le_antisymm hdup (List.count_pos_iff.mpr hh)
        intro hmem
        have h2 := List.count_pos_iff.mpr hmem
        omega
      · show (q.heap.erase t).count s = q.heap.count s
        exact List.count_erase_of_ne hs q.heap
  · by_cases hd : t ∈ q.deferred
    · have hok : q.remove_task t = Except.ok { q with deferred := q.deferred.erase t } := by
        simp [TasksQueue.remove_task, TasksQueue.remove_from_queue,
              TasksQueue.remove_from_deferred, hh, hd]
      refine ⟨?_, fun hmem => absurd hmem hh, fun _ _ => hok, ?_⟩
      · constructor
        · intro hcontra
          rw [hok] at hcontra
          cases hcontra
        · intro hcontra
          exact absurd hd hcontra.2
      · intro q2 h2
        rw [hok] at h2
        cases h2
        refine ⟨hh, Finset.not_mem_erase t q.deferred, fun s hs => ⟨rfl, ?_⟩⟩
        show s ∈ q.deferred.erase t ↔ s ∈ q.deferred
        simp [Finset.mem_erase, hs]
    · have herr : q.remove_task t = Except.error QueueError.task_not_found := by
        simp [TasksQueue.remove_task, TasksQueue.remove_from_queue,
              TasksQueue.remove_from_deferred, hh, hd]
      refine ⟨by simp [herr, hh, hd], fun hmem => absurd hmem hh,
        fun _ hmem => absurd hmem hd, ?_⟩
      intro q2 h2
      rw [herr] at h2
      cases h2

/-- C7 witness: the amended theorem at a concrete queue
(heap `[1, 2]`, deferred `{3}`, removing task `1`). -/
theorem remove_task_correct_witness :
    (TasksQueue.mk [1, 2] {3}).remove_task 1 =
      Except.ok { heap := List.erase [1, 2] 1, deferred := ({3} : Finset Nat) } :=
  (remove_task_correct (TasksQueue.mk [1, 2] {3}) 1 (by decide) (by decide)).2.1 (by decide)

/-- C7 counterexample: a task present in both stores (the queue API allows
`enqueue` and `suspend` independently) is removed from the main heap only —
contradicting "when it succeeds the task is present in neither store
afterwards" as universally stated. -/
theorem remove_task_both_stores_counterexample :
    (TasksQueue.mk [1] {1}).remove_task 1 =
      Except.ok (TasksQueue.mk [] {1}) ∧
    1 ∈ (TasksQueue.mk [] ({1} : Finset Nat)).deferred := by
  constructor
  · rfl
  · decide

/-! ## Executor — `src/tqm/_core/task_executor.py` -/

/-- Executor state, restricted to the fields `shutdown`, `add_task` and
`set_max_workers` read or write: the dual queue, the running-task counter
maintained by `_ExecutorStateTracker`, the registry (a set of unit ids),
the shutdown flag, and the worker bounds.  `max_workers` is an `Int`
because `set_max_workers` accepts any integer. -/
structure TaskExecutor where
  queue : TasksQueue
  running_tasks : Nat
  registry : Finset Nat
  is_shutting_down : Bool
  max_workers : Int
  max_thread_count : Int
deriving DecidableEq

/-- Source `TaskExecutor.set_max_workers`: the `max_workers` property setter clamps
to `max(2, value)`, then `setMaxThreadCount(self.max_workers + 1)`. -/
def TaskExecutor.set_max_workers (e : TaskExecutor) (value : Int) : TaskExecutor :=
  { e with max_workers := max 2 value, max_thread_count := max 2 value + 1 }

/-- Source `TaskExecutor.add_task`: while shutting down the task is returned without
being registered (only a warning is logged); a task already in the registry
raises `TaskAlreadyInQueue`; otherwise it is added to the registry and
`_initialize_task` enqueues it on the main heap (and sets it `waiting`). -/
def TaskExecutor.add_task (e : TaskExecutor) (t : Nat) : Except String TaskExecutor :=
  if e.is_shutting_down then Except.ok e
  else if t ∈ e.registry then Except.error "TaskAlreadyInQueue"
  else Except.ok { e with
    registry := insert t e.registry
    queue := { e.queue with heap := e.queue.heap ++ [t] } }

/-- Source `TaskExecutor.shutdown`: `if not self.status_tracker.running_tasks:
return` — when no task is running the method returns IMMEDIATELY, without
touching the queue; otherwise it dequeues the whole heap, sets
`_is_shutting_down`, blocks on the shutdown thread until the pool is done
(all running workers finish, modelled by the counter reaching 0), and
clears the flag again. -/
def TaskExecutor.shutdown (e : TaskExecutor) : TaskExecutor :=
  if e.running_tasks = 0 then e
  else { e with
    queue := { e.queue with heap := [] }
    running_tasks := 0
    is_shutting_down := false }

/-- C8 (code bug): `shutdown`'s docstring says it "clears the queue and waits
for workers", but the `if not running_tasks: return` guard makes it a no-op
whenever the running counter is zero — an executor with a task admitted
(enqueued, never started) and nothing running keeps that ready entry after
`shutdown()` returns, contradicting the claim that the ready queue is
drained.  Evaluated here at that failing input; the theorem also records
that admission during shutdown leaves the registry unchanged (the part of
the claim the code does honour). -/
theorem shutdown_skips_drain_when_idle :
    (TaskExecutor.shutdown
      { queue := { heap := [1], deferred := ∅ }
        running_tasks := 0
        registry := {1}
        is_shutting_down := false
        max_workers := 20
        max_thread_count := 21 }).queue.heap = [1] ∧
    (TaskExecutor.add_task
      { queue := { heap := [], deferred := ∅ }
        running_tasks := 1
        registry := ∅
        is_shutting_down := true
        max_workers := 20
        max_thread_count := 21 } 7 = Except.ok
      { queue := { heap := [], deferred := ∅ }
        running_tasks := 1
        registry := ∅
        is_shutting_down := true
        max_workers := 20
        max_thread_count := 21 }) := by
  constructor
  · rfl
  · rfl

/-- C10 (confirmed): `set_max_workers(n)` stores `max(2, n)` in
`max_workers` and sets the pool's thread capacity to `max(2, n) + 1`; any
request below 2 is silently clamped to 2 — the setter is total, nothing is
rejected. -/
theorem set_max_workers_clamps (e : TaskExecutor) (n : Int) :
    ((e.set_max_workers n).max_workers = max 2 n ∧
     (e.set_max_workers n).max_thread_count = max 2 n + 1) ∧
    (n < 2 → (e.set_max_workers n).max_workers = 2) := by
  refine ⟨⟨rfl, rfl⟩, fun h => ?_⟩
  show max 2 n = 2
  omega

/-- C10 witness: requesting 0 workers on a concrete executor yields 2 workers
and thread capacity 3. -/
theorem set_max_workers_clamps_witness :
    (TaskExecutor.set_max_workers
      { queue := { heap := [], deferred := ∅ }
        running_tasks := 0
        registry := ∅
        is_shutting_down := false
        max_workers := 20
        max_thread_count := 21 } 0).max_workers = 2 :=
  (set_max_workers_clamps
    { queue := { heap := [], deferred := ∅ }
      running_tasks := 0
      registry := ∅
      is_shutting_down := false
      max_workers := 20
      max_thread_count := 21 } 0).2 (by decide)

/-! ## Dependency graph: `get_children` — `src/tqm/_core/task_base.py` -/

/-- A unit in the dependency tree, for `get_children`: its id, whether its
state is currently `inactive`, and its direct children. -/
inductive UNode where
  | mk (id : Nat) (inactive : Bool) (children : List UNode)

/-- Unit id. -/
def UNode.id : UNode → Nat
  | UNode.mk i _ _ => i

/-- Whether `state.is_inactive` currently holds. -/
def UNode.inactive : UNode → Bool
  | UNode.mk _ b _ => b

/-- Direct children. -/
def UNode.children : UNode → List UNode
  | UNode.mk _ _ cs => cs

mutual
/-- Source `TaskBase.get_children`'s generator `recurse`: for each child passing the
`not t.state.is_inactive` filter, yield the child and then recurse INTO THAT
CHILD ONLY — children of an inactive child are never visited. -/
def get_children_ids : UNode → List Nat
  | UNode.mk _ _ cs => yield_children cs
/-- The `for child in filter(...)` loop body of `recurse`. -/
def yield_children : List UNode → List Nat
  | [] => []
  | c :: cs => (if c.inactive then [] else c.id :: get_children_ids c) ++ yield_children cs
end

/-- Source `TaskBase.get_children`: `set(recurse(self))` — the yielded units,
de-duplicated. -/
def get_children (t : UNode) : List Nat :=
  (get_children_ids t).dedup

mutual
/-- The descendant set as claim C9 words it: ALL transitive descendants
whose own state is not inactive — the recursion descends through inactive
intermediates too.  This definition follows the CLAIM text, for comparison
with `get_children` translated from the source. -/
def spec_non_inactive_descendants : UNode → List Nat
  | UNode.mk _ _ cs => spec_desc_children cs
/-- Helper of `spec_non_inactive_descendants` over a child list. -/
def spec_desc_children : List UNode → List Nat
  | [] => []
  | c :: cs =>
    ((if c.inactive then [] else [c.id]) ++ spec_non_inactive_descendants c) ++ spec_desc_children cs
end

/-- Source `i` is a descendant of `t` reachable through a chain of non-inactive
units: every unit on the path (the target included) is a child of the
previous one and not inactive. -/
inductive reachable_non_inactive : UNode → Nat → Prop where
  | direct {t c : UNode} :
      c ∈ t.children → c.inactive = false → reachable_non_inactive t c.id
  | step {t c : UNode} {i : Nat} :
      c ∈ t.children → c.inactive = false → reachable_non_inactive c i →
      reachable_non_inactive t i

mutual
theorem mem_get_children_ids_iff :
    ∀ (t : UNode) (i : Nat), i ∈ get_children_ids t ↔ reachable_non_inactive t i
  | UNode.mk tid b cs, i => by
    rw [get_children_ids, mem_yield_children_iff cs i]
    constructor
    · rintro ⟨c, hc, hni, h | h⟩
      · subst h
        exact reachable_non_inactive.direct (t := UNode.mk tid b cs) hc hni
      · exact reachable_non_inactive.step (t := UNode.mk tid b cs) hc hni h
    · intro h
      cases h with
      | direct hc hni => exact ⟨_, hc, hni, Or.inl rfl⟩
      | @step _ c _ hc hni hr => exact ⟨c, hc, hni, Or.inr hr⟩

theorem mem_yield_children_iff :
    ∀ (cs : List UNode) (i : Nat),
      i ∈ yield_children cs ↔
        ∃ c, c ∈ cs ∧ c.inactive = false ∧ (i = c.id ∨ reachable_non_inactive c i)
  | [], i => by simp [yield_children]
  | c :: cs, i => by
    rw [yield_children, List.mem_append, mem_yield_children_iff cs i]
    constructor
    · rintro (h | ⟨d, hd, hni, hor⟩)
      · cases hc : c.inactive with
        | true =>
          rw [hc] at h
          simp at h
        | false =>
          rw [hc] at h
          simp only [Bool.false_eq_true, if_false, List.mem_cons] at h
          rcases h with h | h
          · exact ⟨c, List.mem_cons_self c cs, hc, Or.inl h⟩
          · exact ⟨c, List.mem_cons_self c cs, hc,
              Or.inr ((mem_get_children_ids_iff c i).mp h)⟩
      · exact ⟨d, List.mem_cons_of_mem c hd, hni, hor⟩
    · rintro ⟨d, hd, hni, hor⟩
      rcases List.mem_cons.mp hd with rfl | hd
      · left
        rw [hni]
        simp only [Bool.false_eq_true, if_false, List.mem_cons]
        rcases hor with h | h
        · exact Or.inl h
        · exact Or.inr ((mem_get_children_ids_iff d i).mpr h)
      · exact Or.inr ⟨d, hd, hni, hor⟩
end

/-- C9 (amended, proved): `get_children` returns, without duplicates,
exactly the ids reachable from the unit through a chain of non-inactive
children — a non-inactive descendant sitting below an INACTIVE intermediate
child is NOT included (see the counterexample), because the source's
`recurse` filters before descending. -/
theorem get_children_characterization (t : UNode) (i : Nat) :
    (i ∈ get_children t ↔ reachable_non_inactive t i) ∧ (get_children t).Nodup := by
  refine ⟨?_, List.nodup_dedup _⟩
  rw [get_children, List.mem_dedup]
  exact mem_get_children_ids_iff t i

/-- C9 counterexample: unit 0 has an inactive child 1 whose own child 2 is
waiting (non-inactive).  2 is a transitive non-inactive descendant of 0 (it
appears in the claim's descendant set) but `get_children` omits it. -/
theorem get_children_skips_inactive_subtree_counterexample :
    get_children (UNode.mk 0 false [UNode.mk 1 true [UNode.mk 2 false []]]) = [] ∧
    spec_non_inactive_descendants
      (UNode.mk 0 false [UNode.mk 1 true [UNode.mk 2 false []]]) = [2] ∧
    (2 : Nat) ∉ get_children (UNode.mk 0 false [UNode.mk 1 true [UNode.mk 2 false []]]) := by
  refine ⟨rfl, rfl, ?_⟩
  decide

/-! ## Failure cascade — `TaskExecutor._on_task_failed`
(`src/tqm/_core/task_executor.py` lines 354-378, `TaskBase.set_failed`) -/

/-- A unit as seen by the failure handler: its id, whether its state is
currently `blocked`, whether `RetryHandler.handle_failure` schedules a retry
for it (its retry policy returns RETRY), and its direct children. -/
inductive FTask where
  | mk (id : Nat) (blocked : Bool) (retries : Bool) (children : List FTask)

/-- Unit id. -/
def FTask.id : FTask → Nat
  | FTask.mk i _ _ _ => i

/-- Whether `state.is_blocked` currently holds. -/
def FTask.blocked : FTask → Bool
  | FTask.mk _ b _ _ => b

/-- Whether `retry_handler.handle_failure` returns True for this unit. -/
def FTask.retries : FTask → Bool
  | FTask.mk _ _ r _ => r

/-- Direct children. -/
def FTask.children : FTask → List FTask
  | FTask.mk _ _ _ cs => cs

/-- A state transition the failure handler performs, tagged with the unit it
is performed on; a `set_failed` carries whether its comment is the
`ParentFailedError` of a cascade (the recursive calls pass
`TaskParentError(f'Parent ... failed.')`). -/
inductive FailEv where
  | set_retrying (id : Nat)
  | set_failed (id : Nat) (parent_failed : Bool)
deriving DecidableEq, Repr

mutual
/-- Source `TaskExecutor._on_task_failed`, as the sequence of state transitions it
performs: if `handle_failure` retries, the unit is only marked `retrying`
and nothing else happens; otherwise the `on_failed`/`on_finish` callbacks
run (no state transition), then every currently `blocked` child is processed
recursively with a parent-failed exception, and LAST the unit itself is
marked failed (`task.set_failed(exception, str(exception))`). -/
def on_task_failed : FTask → Bool → List FailEv
  | FTask.mk i _ r cs, parent_failed =>
    if r then [FailEv.set_retrying i]
    else fail_blocked_children cs ++ [FailEv.set_failed i parent_failed]
/-- The `for child in filter(lambda t: t.state.is_blocked, task.children)`
loop of `_on_task_failed`. -/
def fail_blocked_children : List FTask → List FailEv
  | [] => []
  | c :: cs =>
    (if c.blocked then on_task_failed c true else []) ++ fail_blocked_children cs
end

/-- Source `i` is a blocked descendant the cascade marks failed: reachable through a
chain of blocked children none of whom is retried by its own policy. -/
inductive cascade_failed : FTask → Nat → Prop where
  | direct {t c : FTask} :
      c ∈ t.children → c.blocked = true → c.retries = false →
      cascade_failed t c.id
  | step {t c : FTask} {i : Nat} :
      c ∈ t.children → c.blocked = true → c.retries = false →
      cascade_failed c i → cascade_failed t i

theorem mem_fail_blocked_children {c : FTask} {cs : List FTask} {x : FailEv}
    (hc : c ∈ cs) (hb : c.blocked = true) (hx : x ∈ on_task_failed c true) :
    x ∈ fail_blocked_children cs := by
  induction cs with
  | nil => cases hc
  | cons d ds ih =>
    rw [fail_blocked_children, List.mem_append]
    rcases List.mem_cons.mp hc with rfl | hc
    · left
      rw [hb]
      simpa using hx
    · exact Or.inr (ih hc)

theorem cascade_failed_mem :
    ∀ (t : FTask) (i : Nat), cascade_failed t i →
      FailEv.set_failed i true ∈ fail_blocked_children t.children := by
  intro t i h
  induction h with
  | @direct t c hc hb hr =>
    refine mem_fail_blocked_children hc hb ?_
    rcases c with ⟨ci, cb, cr, ccs⟩
    rw [on_task_failed]
    simp only [FTask.retries] at hr
    rw [hr]
    simp [FTask.id]
  | @step t c i hc hb hr _ ih =>
    refine mem_fail_blocked_children hc hb ?_
    rcases c with ⟨ci, cb, cr, ccs⟩
    rw [on_task_failed]
    simp only [FTask.retries] at hr
    rw [hr]
    simp only [Bool.false_eq_true, if_false, List.mem_append]
    exact Or.inl (by simpa [FTask.children] using ih)

/-- C1 (amended, proved): when the failing unit's own policy does not retry
it, the handler's transition sequence is the cascade over its blocked
children followed by the unit's own `set_failed` as the LAST transition; and
every blocked descendant reachable through a chain of blocked, non-retried
children receives its `set_failed` (with the parent-failed condition) inside
that prefix — hence strictly before the failing unit's own `failed`
transition.  (A blocked descendant whose own policy retries is marked
`retrying` instead and its subtree is not visited; see the
counterexample.) -/
theorem blocked_descendants_fail_first (t : FTask) (h : t.retries = false) :
    on_task_failed t false =
      fail_blocked_children t.children ++ [FailEv.set_failed t.id false] ∧
    ∀ i, cascade_failed t i →
      FailEv.set_failed i true ∈ fail_blocked_children t.children := by
  constructor
  · rcases t with ⟨ti, tb, tr, tcs⟩
    rw [on_task_failed]
    simp only [FTask.retries] at h
    rw [h]
    simp [FTask.children, FTask.id]
  · exact fun i hi => cascade_failed_mem t i hi

/-- C1 witness: the amended theorem at a concrete two-level cascade — unit 0
(policy does not retry) with blocked non-retried child 1 having blocked
non-retried child 2: both descendants' failed transitions appear in the
prefix preceding unit 0's own failed transition. -/
theorem blocked_descendants_fail_first_witness :
    on_task_failed
        (FTask.mk 0 false false [FTask.mk 1 true false [FTask.mk 2 true false []]]) false =
      fail_blocked_children [FTask.mk 1 true false [FTask.mk 2 true false []]] ++
        [FailEv.set_failed 0 false] ∧
    FailEv.set_failed 1 true ∈
      fail_blocked_children [FTask.mk 1 true false [FTask.mk 2 true false []]] ∧
    FailEv.set_failed 2 true ∈
      fail_blocked_children [FTask.mk 1 true false [FTask.mk 2 true false []]] :=
  ⟨(blocked_descendants_fail_first
      (FTask.mk 0 false false [FTask.mk 1 true false [FTask.mk 2 true false []]]) rfl).1,
   (blocked_descendants_fail_first
      (FTask.mk 0 false false [FTask.mk 1 true false [FTask.mk 2 true false []]]) rfl).2 1
     (cascade_failed.direct
       (t := FTask.mk 0 false false [FTask.mk 1 true false [FTask.mk 2 true false []]])
       (c := FTask.mk 1 true false [FTask.mk 2 true false []])
       (List.mem_singleton.mpr rfl) rfl rfl),
   (blocked_descendants_fail_first
      (FTask.mk 0 false false [FTask.mk 1 true false [FTask.mk 2 true false []]]) rfl).2 2
     (cascade_failed.step
       (t := FTask.mk 0 false false [FTask.mk 1 true false [FTask.mk 2 true false []]])
       (c := FTask.mk 1 true false [FTask.mk 2 true false []])
       (List.mem_singleton.mpr rfl) rfl rfl
       (cascade_failed.direct
         (t := FTask.mk 1 true false [FTask.mk 2 true false []])
         (c := FTask.mk 2 true false [])
         (List.mem_singleton.mpr rfl) rfl rfl))⟩

/-- C1 counterexample: a blocked child whose own retry policy retries it is
never marked failed at all — the recursive `_on_task_failed(child, ...)`
goes through `handle_failure`, which marks it `retrying` and schedules a
re-run.  With unit 0 (no retry) and blocked child 1 whose policy retries,
the handler's transitions are `[retrying(1), failed(0)]`: no failed
transition for child 1 exists, refuting "every transitively reachable
blocked child is marked failed ... before the failing unit". -/
theorem blocked_child_retries_counterexample :
    on_task_failed (FTask.mk 0 false false [FTask.mk 1 true true []]) false =
      [FailEv.set_retrying 1, FailEv.set_failed 0 false] ∧
    FailEv.set_failed 1 true ∉
      on_task_failed (FTask.mk 0 false false [FTask.mk 1 true true []]) false := by
  constructor
  · rfl
  · intro hmem
    rw [show on_task_failed (FTask.mk 0 false false [FTask.mk 1 true true []]) false =
        [FailEv.set_retrying 1, FailEv.set_failed 0 false] from rfl] at hmem
    simp at hmem
